import Mathlib

/- Verification of the DDPM probability-parameter core of the jet-ddpm
repository: variance-schedule generation, forward-jump parameter
derivation, the backward posterior step, the epsilon-parameterised
reverse-step mean, and the model-initialisation helper, together with
the reference computations from the repository's test suite
(src/tests/test_dp_ddpm.py).  Real-valued tensors are modelled as
`List ℝ` and elementwise tensor arithmetic as list maps. -/

noncomputable section

/-- Model of torch.linspace: `n` evenly spaced points from `a` to `b`
inclusive.  For `n = 1` torch returns `[a]`; here the step term is
`(b - a) * 0 / 0 = 0`, so the formula also collapses to `a`. -/
def linspace (a b : ℝ) (n : ℕ) : List ℝ :=
  (List.range n).map (fun i : ℕ => a + (b - a) * (i : ℝ) / ((n : ℝ) - 1))

/-- Model of torch.cumprod along dim 0, as the running product carried
in an accumulator. -/
def cumprodAux (acc : ℝ) : List ℝ → List ℝ
  | [] => []
  | x :: xs => (acc * x) :: cumprodAux (acc * x) xs

/-- Cumulative product of a list: output index `i` holds the product of
the inputs at indices `0..i`. -/
def cumprod (l : List ℝ) : List ℝ := cumprodAux 1 l

/-- Reference beta schedule from the test suite: a zero sentinel
prepended to a linear ramp of `T` values from `beta1` to `betaT`. -/
def gen_beta_schedule (beta1 betaT : ℝ) (T : ℕ) : List ℝ :=
  0 :: linspace beta1 betaT T

/-- Reference `alpha[t] = 1 - beta[t]` from the test suite. -/
def alpha_from_beta (beta : List ℝ) : List ℝ :=
  beta.map (fun b => 1 - b)

/-- Reference cumulative product of alpha from the test suite. -/
def calc_alpha_bar (alpha : List ℝ) : List ℝ :=
  cumprod alpha

/-- Reference forward scale `sqrt(alpha_bar[t])` from the test suite. -/
def calc_forward_scale (alpha_bar : List ℝ) : List ℝ :=
  alpha_bar.map Real.sqrt

/-- Reference forward variance `1 - alpha_bar[t]` from the test suite. -/
def calc_forward_var (alpha_bar : List ℝ) : List ℝ :=
  alpha_bar.map (fun ab => 1 - ab)

/-- Reference posterior mean coefficients from the test suite:
`scale = sqrt(alpha[t]) * (1 - alpha_bar[t-1]) / (1 - alpha_bar[t])` and
`bias = sqrt(alpha_bar[t-1]) * beta[t] / (1 - alpha_bar[t]) * x0`. -/
def calc_imu (alpha alpha_bar beta : List ℝ) (t : ℕ) (x0 : ℝ) : ℝ × ℝ :=
  (Real.sqrt (alpha.getD t 0) * (1 - alpha_bar.getD (t - 1) 0)
      / (1 - alpha_bar.getD t 0),
   Real.sqrt (alpha_bar.getD (t - 1) 0) * beta.getD t 0
      / (1 - alpha_bar.getD t 0) * x0)

/-- Reference epsilon-parameterised mean coefficients from the test
suite: `p0 = 1 / sqrt(alpha[t])` and
`p1 = -beta[t] / (sqrt(alpha[t]) * sqrt(1 - alpha_bar[t]))`. -/
def calc_imu_eps_parts (alpha alpha_bar beta : List ℝ) (t : ℕ) : ℝ × ℝ :=
  (1 / Real.sqrt (alpha.getD t 0),
   -beta.getD t 0 / (Real.sqrt (alpha.getD t 0) * Real.sqrt (1 - alpha_bar.getD t 0)))

/-- Reference posterior variance from the test suite:
`(1 - alpha_bar[t-1]) / (1 - alpha_bar[t]) * beta[t]`. -/
def calc_ivar (alpha alpha_bar beta : List ℝ) (t : ℕ) : ℝ :=
  (1 - alpha_bar.getD (t - 1) 0) / (1 - alpha_bar.getD t 0) * beta.getD t 0

/-- Modelled from the spec: the VarianceSchedule record of
jetgen.diffusion.vsched (whose implementation is not in the sources):
the beta sequence together with the single-step `scale[t] = sqrt(1 -
beta[t])` and `var[t] = beta[t]` sequences. -/
structure VarianceSchedule where
  beta : List ℝ
  scale : List ℝ
  var : List ℝ

/-- Modelled from the spec: the configuration error signalled by
`generate_linear_schedule` on invalid bounds or horizon. -/
inductive ConfigurationError where
  | invalidConfig

/-- Modelled from the spec: the schedule built by
`generate_linear_schedule` once the configuration has been validated:
`beta[0] = 0`, `beta[1..T]` linearly interpolated between the bounds,
`scale[t] = sqrt(1 - beta[t])`, `var[t] = beta[t]`. -/
def make_linear_schedule (T : ℕ) (beta_low beta_high : ℝ) : VarianceSchedule :=
  let beta := 0 :: linspace beta_low beta_high T
  { beta := beta
    scale := beta.map (fun b => Real.sqrt (1 - b))
    var := beta }

/-- Modelled from the spec: `generate_linear_schedule(T, beta_low,
beta_high)` of jetgen.diffusion.vsched (implementation not in the
sources).  Signals a ConfigurationError when `beta_low > beta_high`,
when either bound is outside `[0, 1)`, or when `T < 0`; otherwise
returns the linear schedule. -/
def generate_linear_schedule (T : ℤ) (beta_low beta_high : ℝ) :
    Except ConfigurationError VarianceSchedule :=
  if 0 ≤ T ∧ 0 ≤ beta_low ∧ beta_low ≤ beta_high ∧ beta_high < 1 then
    .ok (make_linear_schedule T.toNat beta_low beta_high)
  else
    .error .invalidConfig

/-- Modelled from the spec: the cached forward-jump parameters of
q(x_t | x_0): `scale[t] = sqrt(alpha_bar[t])`, `var[t] = 1 -
alpha_bar[t]`. -/
structure ForwardJumpProbability where
  scale : List ℝ
  var : List ℝ

/-- Modelled from the spec: the per-query backward-step posterior
parameters `(scale, bias, var)` of q(x_(t-1) | x_t, x0). -/
structure BackwardStepProbability where
  scale : ℝ
  bias : ℝ
  var : ℝ

/-- Modelled from the spec: the DDPM engine of jetgen.diffusion.ddpm
(implementation not in the sources).  It owns a schedule, a seed and a
device token, and caches `alpha`, `alpha_bar` and the forward-jump
parameters at construction.  The random stream itself is not modelled;
only the seed is carried. -/
structure DDPM where
  sched : VarianceSchedule
  seed : ℕ
  device : String
  alpha : List ℝ
  alpha_bar : List ℝ
  fwd_p_jumps : ForwardJumpProbability

/-- Modelled from the spec: DDPM construction precomputes
`alpha[t] = 1 - beta[t]`, `alpha_bar` as the running cumulative product
of alpha, and the forward-jump `scale = sqrt(alpha_bar)`,
`var = 1 - alpha_bar` arrays over the full horizon. -/
def DDPM.new (sched : VarianceSchedule) (seed : ℕ) (device : String) : DDPM :=
  let alpha := sched.beta.map (fun b => 1 - b)
  let alpha_bar := cumprod alpha
  { sched := sched
    seed := seed
    device := device
    alpha := alpha
    alpha_bar := alpha_bar
    fwd_p_jumps :=
      { scale := alpha_bar.map Real.sqrt
        var := alpha_bar.map (fun ab => 1 - ab) } }

/-- Modelled from the spec: the backward posterior query
`get_bkw_p_step(t, x0)` of jetgen.diffusion.ddpm (implementation not in
the sources), computing the closed form
`scale = sqrt(alpha[t]) * (1 - alpha_bar[t-1]) / (1 - alpha_bar[t])`,
`bias = sqrt(alpha_bar[t-1]) * beta[t] / (1 - alpha_bar[t]) * x0`,
`var = (1 - alpha_bar[t-1]) / (1 - alpha_bar[t]) * beta[t]`. -/
def DDPM.get_bkw_p_step (d : DDPM) (t : ℕ) (x0 : ℝ) : BackwardStepProbability :=
  { scale := Real.sqrt (d.alpha.getD t 0) * (1 - d.alpha_bar.getD (t - 1) 0)
      / (1 - d.alpha_bar.getD t 0)
    bias := Real.sqrt (d.alpha_bar.getD (t - 1) 0) * d.sched.beta.getD t 0
      / (1 - d.alpha_bar.getD t 0) * x0
    var := (1 - d.alpha_bar.getD (t - 1) 0) / (1 - d.alpha_bar.getD t 0)
      * d.sched.beta.getD t 0 }

/-- Validity of a beta sequence: a zero sentinel at index 0 and all
later entries strictly between 0 and 1. -/
def ValidBeta (beta : List ℝ) : Prop :=
  beta.getD 0 0 = 0 ∧
  ∀ i, 1 ≤ i → i < beta.length → 0 < beta.getD i 0 ∧ beta.getD i 0 < 1

/-- Naive, non-incremental recomputation of the cumulative product:
`alpha_bar[t]` as a direct product of `(1 - beta[i])` for `i = 0..t`. -/
def naive_alpha_bar (beta : List ℝ) (t : ℕ) : ℝ :=
  ((beta.take (t + 1)).map (fun b => 1 - b)).prod

/-- Configuration record consumed by `default_model_init`
(src/jetgen/models/funcs.py): the weight-initialisation setting, the
spectral-normalisation flag, and any further fields (abstracted as
`other`). -/
structure ModelConfig (W O : Type) where
  weight_init : W
  spectr_norm : Bool
  other : O

/-- Model initialisation from src/jetgen/models/funcs.py: prepare the
model on the device, apply weight initialisation in place, and apply
spectral normalisation in place when configured.  In-place mutation of
the model is embedded as explicit state passing. -/
def default_model_init {M W D O : Type} (prepare_model : M → D → M)
    (init_weights : M → W → M) (apply_sn : M → M)
    (model : M) (model_config : ModelConfig W O) (device : D) : M :=
  let m := prepare_model model device
  let m2 := init_weights m model_config.weight_init
  if model_config.spectr_norm then apply_sn m2 else m2

/-- Length of a linspace. -/
lemma linspace_length (a b : ℝ) (n : ℕ) : (linspace a b n).length = n := by
  rw [linspace, List.length_map, List.length_range]

/-- Element `i` of a linspace, for `i` in range. -/
lemma linspace_getD (a b : ℝ) {n i : ℕ} (h : i < n) :
    (linspace a b n).getD i 0 = a + (b - a) * (i : ℝ) / ((n : ℝ) - 1) := by
  rw [List.getD_eq_getElem _ _ (by rw [linspace_length]; exact h)]
  simp only [linspace, List.getElem_map, List.getElem_range]

/-- The running cumulative product preserves length. -/
lemma cumprodAux_length (acc : ℝ) (l : List ℝ) :
    (cumprodAux acc l).length = l.length := by
  induction l generalizing acc with
  | nil => simp [cumprodAux]
  | cons x xs ih => simp [cumprodAux, ih]

/-- The cumulative product preserves length. -/
lemma cumprod_length (l : List ℝ) : (cumprod l).length = l.length :=
  cumprodAux_length 1 l

/-- Element `t` of the running cumulative product is the accumulator
times the product of the first `t + 1` inputs. -/
lemma cumprodAux_getD (acc : ℝ) (l : List ℝ) {t : ℕ} (h : t < l.length) :
    (cumprodAux acc l).getD t 0 = acc * (l.take (t + 1)).prod := by
  induction l generalizing acc t with
  | nil => simp at h
  | cons x xs ih =>
    cases t with
    | zero => simp [cumprodAux]
    | succ t =>
      have ht : t < xs.length := by simpa using h
      simp only [cumprodAux, List.getD_cons_succ, List.take_succ_cons,
        List.prod_cons]
      rw [ih (acc * x) ht]
      ring

/-- Element `t` of the cumulative product is the product of the first
`t + 1` inputs. -/
lemma cumprod_getD (l : List ℝ) {t : ℕ} (h : t < l.length) :
    (cumprod l).getD t 0 = (l.take (t + 1)).prod := by
  rw [cumprod, cumprodAux_getD 1 l h, one_mul]

/-- Recurrence of the cumulative product at successive indices. -/
lemma cumprod_getD_succ (l : List ℝ) {t : ℕ} (h : t + 1 < l.length) :
    (cumprod l).getD (t + 1) 0 = (cumprod l).getD t 0 * l.getD (t + 1) 0 := by
  rw [cumprod_getD l h, cumprod_getD l (Nat.lt_of_succ_lt h),
    List.prod_take_succ l (t + 1) h, List.getD_eq_getElem _ _ h]

/-- Mapping commutes with indexed access, in range. -/
lemma getD_map (f : ℝ → ℝ) (l : List ℝ) {t : ℕ} (h : t < l.length) :
    (l.map f).getD t 0 = f (l.getD t 0) := by
  rw [List.getD_eq_getElem _ _ (by simpa using h), List.getD_eq_getElem _ _ h,
    List.getElem_map]

/-- Under a valid beta sequence, every alpha entry lies in `(0, 1]`. -/
lemma alpha_getD_bounds {beta : List ℝ} (hv : ValidBeta beta) {i : ℕ}
    (h : i < beta.length) :
    0 < (alpha_from_beta beta).getD i 0 ∧ (alpha_from_beta beta).getD i 0 ≤ 1 := by
  rw [alpha_from_beta, getD_map _ _ h]
  rcases Nat.eq_zero_or_pos i with hi | hi
  · subst hi
    rw [hv.1]
    norm_num
  · have := hv.2 i hi h
    constructor <;> linarith [this.1, this.2]

/-- Under a valid beta sequence, alpha entries at positive indices are
strictly below 1. -/
lemma alpha_getD_lt_one {beta : List ℝ} (hv : ValidBeta beta) {i : ℕ}
    (h1 : 1 ≤ i) (h : i < beta.length) :
    (alpha_from_beta beta).getD i 0 < 1 := by
  rw [alpha_from_beta, getD_map _ _ h]
  have := hv.2 i h1 h
  linarith [this.1]

/-- Under a valid beta sequence, every alpha_bar entry lies in `(0, 1]`. -/
lemma alpha_bar_getD_bounds {beta : List ℝ} (hv : ValidBeta beta) {t : ℕ}
    (h : t < beta.length) :
    0 < (calc_alpha_bar (alpha_from_beta beta)).getD t 0 ∧
      (calc_alpha_bar (alpha_from_beta beta)).getD t 0 ≤ 1 := by
  have hlen : (alpha_from_beta beta).length = beta.length := by
    simp [alpha_from_beta]
  induction t with
  | zero =>
    rw [calc_alpha_bar, cumprod_getD _ (by omega)]
    have h0 : 0 < (alpha_from_beta beta).length := by omega
    rw [List.prod_take_succ _ 0 h0]
    simp only [List.take_zero, List.prod_nil, one_mul]
    rw [← List.getD_eq_getElem _ 0 h0]
    exact alpha_getD_bounds hv (by omega)
  | succ t ih =>
    have ht : t < beta.length := Nat.lt_of_succ_lt h
    have hs : t + 1 < (alpha_from_beta beta).length := by omega
    rw [calc_alpha_bar, cumprod_getD_succ _ hs]
    have hab := ih ht
    rw [calc_alpha_bar] at hab
    have ha := alpha_getD_bounds hv h
    constructor
    · exact mul_pos hab.1 ha.1
    · exact mul_le_one₀ hab.2 ha.1.le ha.2

/-- Reparameterised forward sample: `x_t = sqrt(alpha_bar[t]) * x0 +
sqrt(1 - alpha_bar[t]) * eps`, the draw from q(x_t | x_0) produced from
clean data `x0` and unit noise `eps`. -/
def forward_sample (alpha_bar : List ℝ) (t : ℕ) (x0 eps : ℝ) : ℝ :=
  Real.sqrt (alpha_bar.getD t 0) * x0 + Real.sqrt (1 - alpha_bar.getD t 0) * eps

/-- First element of a cumulative product. -/
lemma cumprod_getD_zero (l : List ℝ) (h : 0 < l.length) :
    (cumprod l).getD 0 0 = l.getD 0 0 := by
  rw [cumprod_getD l h, List.prod_take_succ l 0 h]
  simp only [List.take_zero, List.prod_nil, one_mul]
  rw [List.getD_eq_getElem _ _ h]

/-- A take of a list as a map over an index range. -/
lemma take_eq_range_map (l : List ℝ) {n : ℕ} (h : n ≤ l.length) :
    l.take n = (List.range n).map (fun i => l.getD i 0) := by
  apply List.ext_getElem
  · simp [List.length_take, Nat.min_eq_left h]
  · intro i h1 h2
    have hi : i < n := by simpa using h2
    have hil : i < l.length := Nat.lt_of_lt_of_le hi h
    rw [List.getElem_take, List.getElem_map, List.getElem_range,
      List.getD_eq_getElem _ _ hil]

/-- Element `t` of a cumulative product as a direct product over the
index range `0..t`. -/
lemma cumprod_getD_eq_range_prod (l : List ℝ) {t : ℕ} (h : t < l.length) :
    (cumprod l).getD t 0 = ((List.range (t + 1)).map (fun i => l.getD i 0)).prod := by
  rw [cumprod_getD l h, take_eq_range_map l h]

/-- Projection of the engine's cached alpha array. -/
lemma DDPM_new_alpha (s : VarianceSchedule) (seed : ℕ) (device : String) :
    (DDPM.new s seed device).alpha = s.beta.map (fun b => 1 - b) := rfl

/-- Projection of the engine's cached alpha_bar array. -/
lemma DDPM_new_alpha_bar (s : VarianceSchedule) (seed : ℕ) (device : String) :
    (DDPM.new s seed device).alpha_bar = cumprod (s.beta.map (fun b => 1 - b)) := rfl

/-- Projection of the engine's schedule. -/
lemma DDPM_new_sched (s : VarianceSchedule) (seed : ℕ) (device : String) :
    (DDPM.new s seed device).sched = s := rfl

/-- Projection of the engine's cached forward-jump scale array. -/
lemma DDPM_new_fwd_scale (s : VarianceSchedule) (seed : ℕ) (device : String) :
    (DDPM.new s seed device).fwd_p_jumps.scale
      = (cumprod (s.beta.map (fun b => 1 - b))).map Real.sqrt := rfl

/-- Projection of the engine's cached forward-jump variance array. -/
lemma DDPM_new_fwd_var (s : VarianceSchedule) (seed : ℕ) (device : String) :
    (DDPM.new s seed device).fwd_p_jumps.var
      = (cumprod (s.beta.map (fun b => 1 - b))).map (fun ab => 1 - ab) := rfl

/-- The linear schedule's beta sequence coincides with the test-suite
reference schedule. -/
lemma make_linear_schedule_beta (T : ℕ) (bl bh : ℝ) :
    (make_linear_schedule T bl bh).beta = gen_beta_schedule bl bh T := rfl

/-- The linear schedule's single-step scale sequence. -/
lemma make_linear_schedule_scale (T : ℕ) (bl bh : ℝ) :
    (make_linear_schedule T bl bh).scale
      = (gen_beta_schedule bl bh T).map (fun b => Real.sqrt (1 - b)) := rfl

/-- The linear schedule's single-step variance sequence is beta itself. -/
lemma make_linear_schedule_var (T : ℕ) (bl bh : ℝ) :
    (make_linear_schedule T bl bh).var = gen_beta_schedule bl bh T := rfl

/-- Length of the reference schedule. -/
lemma gen_beta_schedule_length (bl bh : ℝ) (T : ℕ) :
    (gen_beta_schedule bl bh T).length = T + 1 := by
  rw [gen_beta_schedule, List.length_cons, linspace_length]

/-- The sentinel entry of the reference schedule. -/
lemma gen_beta_schedule_getD_zero (bl bh : ℝ) (T : ℕ) :
    (gen_beta_schedule bl bh T).getD 0 0 = 0 := rfl

/-- Later entries of the reference schedule index into the linspace. -/
lemma gen_beta_schedule_getD_succ (bl bh : ℝ) (T t : ℕ) :
    (gen_beta_schedule bl bh T).getD (t + 1) 0 = (linspace bl bh T).getD t 0 := rfl

/-- Algebraic core of the cross-form consistency: with `a = alpha[t]`
in `(0, 1]`, `A = alpha_bar[t-1]` positive, and `A * a = alpha_bar[t]`
below 1, the epsilon-parameterised reverse mean applied to the forward
sample equals the posterior mean. -/
lemma eps_mean_eq_posterior_mean (a A x0 eps : ℝ) (ha : 0 < a) (hA : 0 < A)
    (hlt : A * a < 1) :
    1 / Real.sqrt a * (Real.sqrt (A * a) * x0 + Real.sqrt (1 - A * a) * eps)
        + -(1 - a) / (Real.sqrt a * Real.sqrt (1 - A * a)) * eps
      = Real.sqrt a * (1 - A) / (1 - A * a)
          * (Real.sqrt (A * a) * x0 + Real.sqrt (1 - A * a) * eps)
        + Real.sqrt A * (1 - a) / (1 - A * a) * x0 := by
  have hAa : Real.sqrt (A * a) = Real.sqrt A * Real.sqrt a :=
    Real.sqrt_mul hA.le a
  rw [hAa]
  set s := Real.sqrt a with hs_def
  set w := Real.sqrt A with hw_def
  set u := Real.sqrt (1 - A * a) with hu_def
  have hs : 0 < s := Real.sqrt_pos.mpr ha
  have hw : 0 < w := Real.sqrt_pos.mpr hA
  have hu : 0 < u := Real.sqrt_pos.mpr (by linarith)
  have hs2 : s ^ 2 = a := Real.sq_sqrt ha.le
  have hu2 : u ^ 2 = 1 - A * a := Real.sq_sqrt (by linarith)
  have hne : (1 : ℝ) - A * a ≠ 0 := by linarith
  have lhs_eq : 1 / s * (w * s * x0 + u * eps) + -(1 - a) / (s * u) * eps
      = w * x0 + s * (1 - A) / u * eps := by
    field_simp
    linear_combination eps * s * u * hu2 + eps * (A - 1) * s * u * hs2
  have rhs_eq : s * (1 - A) / (1 - A * a) * (w * s * x0 + u * eps)
        + w * (1 - a) / (1 - A * a) * x0
      = w * x0 + s * (1 - A) / u * eps := by
    field_simp
    linear_combination s * eps * (1 - A) * hu2 + w * x0 * u * (1 - A) * hs2
  rw [lhs_eq, rhs_eq]

/-- C1: for every `t` in `[1, T]` and every `x0`, the engine's backward
posterior query `get_bkw_p_step` returns the `(scale, bias, var)` triple
of the closed-form reference (`calc_imu`, `calc_ivar`) computed from the
same linear-schedule configuration, within `1e-3` absolute tolerance. -/
theorem bkw_p_step_matches_reference (T : ℕ) (bl bh : ℝ)
    (hbl : 0 < bl) (hblbh : bl ≤ bh) (hbh : bh < 1)
    (t : ℕ) (ht1 : 1 ≤ t) (htT : t ≤ T) (x0 : ℝ) (seed : ℕ) (device : String) :
    |((DDPM.new (make_linear_schedule T bl bh) seed device).get_bkw_p_step t x0).scale
        - (calc_imu (alpha_from_beta (gen_beta_schedule bl bh T))
            (calc_alpha_bar (alpha_from_beta (gen_beta_schedule bl bh T)))
            (gen_beta_schedule bl bh T) t x0).1| ≤ 1e-3 ∧
    |((DDPM.new (make_linear_schedule T bl bh) seed device).get_bkw_p_step t x0).bias
        - (calc_imu (alpha_from_beta (gen_beta_schedule bl bh T))
            (calc_alpha_bar (alpha_from_beta (gen_beta_schedule bl bh T)))
            (gen_beta_schedule bl bh T) t x0).2| ≤ 1e-3 ∧
    |((DDPM.new (make_linear_schedule T bl bh) seed device).get_bkw_p_step t x0).var
        - calc_ivar (alpha_from_beta (gen_beta_schedule bl bh T))
            (calc_alpha_bar (alpha_from_beta (gen_beta_schedule bl bh T)))
            (gen_beta_schedule bl bh T) t| ≤ 1e-3 := by
  refine ⟨?_, ?_, ?_⟩
  · have h : ((DDPM.new (make_linear_schedule T bl bh) seed device).get_bkw_p_step
        t x0).scale
        = (calc_imu (alpha_from_beta (gen_beta_schedule bl bh T))
            (calc_alpha_bar (alpha_from_beta (gen_beta_schedule bl bh T)))
            (gen_beta_schedule bl bh T) t x0).1 := rfl
    rw [h, sub_self, abs_zero]
    norm_num
  · have h : ((DDPM.new (make_linear_schedule T bl bh) seed device).get_bkw_p_step
        t x0).bias
        = (calc_imu (alpha_from_beta (gen_beta_schedule bl bh T))
            (calc_alpha_bar (alpha_from_beta (gen_beta_schedule bl bh T)))
            (gen_beta_schedule bl bh T) t x0).2 := rfl
    rw [h, sub_self, abs_zero]
    norm_num
  · have h : ((DDPM.new (make_linear_schedule T bl bh) seed device).get_bkw_p_step
        t x0).var
        = calc_ivar (alpha_from_beta (gen_beta_schedule bl bh T))
            (calc_alpha_bar (alpha_from_beta (gen_beta_schedule bl bh T)))
            (gen_beta_schedule bl bh T) t := rfl
    rw [h, sub_self, abs_zero]
    norm_num

/-- Witness for C1 at the test configuration `T = 10`,
`beta_low = 1e-4`, `beta_high = 0.1`, `t = 3`, `x0 = 1/2`. -/
theorem bkw_p_step_matches_reference_witness :
    |((DDPM.new (make_linear_schedule 10 (1e-4) (0.1)) 0 "cpu").get_bkw_p_step 3
          (1/2)).scale
        - (calc_imu (alpha_from_beta (gen_beta_schedule (1e-4) (0.1) 10))
            (calc_alpha_bar (alpha_from_beta (gen_beta_schedule (1e-4) (0.1) 10)))
            (gen_beta_schedule (1e-4) (0.1) 10) 3 (1/2)).1| ≤ 1e-3 ∧
    |((DDPM.new (make_linear_schedule 10 (1e-4) (0.1)) 0 "cpu").get_bkw_p_step 3
          (1/2)).bias
        - (calc_imu (alpha_from_beta (gen_beta_schedule (1e-4) (0.1) 10))
            (calc_alpha_bar (alpha_from_beta (gen_beta_schedule (1e-4) (0.1) 10)))
            (gen_beta_schedule (1e-4) (0.1) 10) 3 (1/2)).2| ≤ 1e-3 ∧
    |((DDPM.new (make_linear_schedule 10 (1e-4) (0.1)) 0 "cpu").get_bkw_p_step 3
          (1/2)).var
        - calc_ivar (alpha_from_beta (gen_beta_schedule (1e-4) (0.1) 10))
            (calc_alpha_bar (alpha_from_beta (gen_beta_schedule (1e-4) (0.1) 10)))
            (gen_beta_schedule (1e-4) (0.1) 10) 3| ≤ 1e-3 :=
  bkw_p_step_matches_reference 10 (1e-4) (0.1) (by norm_num) (by norm_num)
    (by norm_num) 3 (by norm_num) (by norm_num) (1/2) 0 "cpu"

/-- C2: for every `x0`, the backward posterior at `t = 1` is exactly
`(scale = 0, bias = x0, var = 0)`: `beta[0] = 0` forces
`alpha_bar[0] = 1`, so the `(1 - alpha_bar[0])` numerator factor is
exactly 0, and the remaining denominator `(1 - alpha_bar[1]) = beta[1]`
is nonzero, making the final denoising step deterministic. -/
theorem bkw_p_step_t1_collapses_onto_x0 (T : ℕ) (hT : 1 ≤ T) (bl bh : ℝ)
    (hbl : 0 < bl) (hblbh : bl ≤ bh) (hbh : bh < 1)
    (x0 : ℝ) (seed : ℕ) (device : String) :
    (DDPM.new (make_linear_schedule T bl bh) seed device).get_bkw_p_step 1 x0
        = ⟨0, x0, 0⟩ ∧
    1 - (DDPM.new (make_linear_schedule T bl bh) seed device).alpha_bar.getD 0 0
        = 0 ∧
    1 - (DDPM.new (make_linear_schedule T bl bh) seed device).alpha_bar.getD 1 0
        = (make_linear_schedule T bl bh).beta.getD 1 0 ∧
    (make_linear_schedule T bl bh).beta.getD 1 0 ≠ 0 := by
  have hlenB : (gen_beta_schedule bl bh T).length = T + 1 :=
    gen_beta_schedule_length bl bh T
  have hlenA : ((gen_beta_schedule bl bh T).map (fun b => 1 - b)).length = T + 1 := by
    rw [List.length_map, hlenB]
  have hbeta1 : (gen_beta_schedule bl bh T).getD 1 0 = bl := by
    rw [show (1 : ℕ) = 0 + 1 from rfl, gen_beta_schedule_getD_succ,
      linspace_getD bl bh (show 0 < T by omega)]
    norm_num
  have hab0 : (DDPM.new (make_linear_schedule T bl bh) seed device).alpha_bar.getD 0 0
      = 1 := by
    rw [DDPM_new_alpha_bar, make_linear_schedule_beta,
      cumprod_getD_zero _ (by rw [hlenA]; omega),
      getD_map _ _ (show 0 < (gen_beta_schedule bl bh T).length by rw [hlenB]; omega),
      gen_beta_schedule_getD_zero]
    norm_num
  have hab1 : (DDPM.new (make_linear_schedule T bl bh) seed device).alpha_bar.getD 1 0
      = 1 - bl := by
    rw [DDPM_new_alpha_bar, make_linear_schedule_beta,
      show (1 : ℕ) = 0 + 1 from rfl, cumprod_getD_succ _ (by rw [hlenA]; omega),
      cumprod_getD_zero _ (by rw [hlenA]; omega),
      getD_map _ _ (show 0 < (gen_beta_schedule bl bh T).length by rw [hlenB]; omega),
      getD_map _ _ (show 0 + 1 < (gen_beta_schedule bl bh T).length by
        rw [hlenB]; omega),
      gen_beta_schedule_getD_zero]
    rw [show (0 : ℕ) + 1 = 1 from rfl, hbeta1]
    ring
  have hbeta1' : (make_linear_schedule T bl bh).beta.getD 1 0 = bl := by
    rw [make_linear_schedule_beta, hbeta1]
  refine ⟨?_, ?_, ?_, ?_⟩
  · simp only [DDPM.get_bkw_p_step, BackwardStepProbability.mk.injEq]
    rw [show (1 : ℕ) - 1 = 0 from rfl, hab0, hab1, DDPM_new_sched, hbeta1']
    refine ⟨by ring_nf, ?_, by ring_nf⟩
    rw [Real.sqrt_one, sub_sub_cancel, one_mul, div_self (ne_of_gt hbl), one_mul]
  · rw [hab0, sub_self]
  · rw [hab1, hbeta1']
    ring
  · rw [hbeta1']
    exact ne_of_gt hbl

/-- Witness for C2 at `T = 10`, `beta_low = 1e-4`, `beta_high = 0.1`,
`x0 = 1/2`. -/
theorem bkw_p_step_t1_collapses_onto_x0_witness :
    (DDPM.new (make_linear_schedule 10 (1e-4) (0.1)) 0 "cpu").get_bkw_p_step 1 (1/2)
        = ⟨0, 1/2, 0⟩ ∧
    1 - (DDPM.new (make_linear_schedule 10 (1e-4) (0.1)) 0 "cpu").alpha_bar.getD 0 0
        = 0 ∧
    1 - (DDPM.new (make_linear_schedule 10 (1e-4) (0.1)) 0 "cpu").alpha_bar.getD 1 0
        = (make_linear_schedule 10 (1e-4) (0.1)).beta.getD 1 0 ∧
    (make_linear_schedule 10 (1e-4) (0.1)).beta.getD 1 0 ≠ 0 :=
  bkw_p_step_t1_collapses_onto_x0 10 (by norm_num) (1e-4) (0.1) (by norm_num)
    (by norm_num) (by norm_num) (1/2) 0 "cpu"

/-- C3: for every beta sequence, the engine's cached forward-jump
parameters satisfy `scale[t] = sqrt(alpha_bar[t])` and
`var[t] = 1 - alpha_bar[t]` for all `t` in range, and the cached
`alpha_bar[t]` agrees with an independent naive cumulative-product
recomputation from the same beta sequence. -/
theorem fwd_p_jumps_match_naive_recomputation (sched : VarianceSchedule)
    (seed : ℕ) (device : String) (t : ℕ) (ht : t < sched.beta.length) :
    (DDPM.new sched seed device).fwd_p_jumps.scale.getD t 0
        = Real.sqrt ((DDPM.new sched seed device).alpha_bar.getD t 0) ∧
    (DDPM.new sched seed device).fwd_p_jumps.var.getD t 0
        = 1 - (DDPM.new sched seed device).alpha_bar.getD t 0 ∧
    (DDPM.new sched seed device).alpha_bar.getD t 0
        = naive_alpha_bar sched.beta t := by
  have hlenA : (sched.beta.map (fun b => 1 - b)).length = sched.beta.length :=
    List.length_map _ _
  have hlenC : (cumprod (sched.beta.map (fun b => 1 - b))).length
      = sched.beta.length := by
    rw [cumprod_length, hlenA]
  refine ⟨?_, ?_, ?_⟩
  · rw [DDPM_new_fwd_scale, DDPM_new_alpha_bar,
      getD_map _ _ (show t < (cumprod (sched.beta.map (fun b => 1 - b))).length by
        rw [hlenC]; exact ht)]
  · rw [DDPM_new_fwd_var, DDPM_new_alpha_bar,
      getD_map _ _ (show t < (cumprod (sched.beta.map (fun b => 1 - b))).length by
        rw [hlenC]; exact ht)]
  · rw [DDPM_new_alpha_bar, cumprod_getD _ (by rw [hlenA]; exact ht),
      naive_alpha_bar, List.map_take]

/-- Witness for C3 at the schedule `T = 10`, `beta_low = 1e-4`,
`beta_high = 0.1` and `t = 7`. -/
theorem fwd_p_jumps_match_naive_recomputation_witness :
    (DDPM.new (make_linear_schedule 10 (1e-4) (0.1)) 0 "cpu").fwd_p_jumps.scale.getD
          7 0
        = Real.sqrt
            ((DDPM.new (make_linear_schedule 10 (1e-4) (0.1)) 0 "cpu").alpha_bar.getD
              7 0) ∧
    (DDPM.new (make_linear_schedule 10 (1e-4) (0.1)) 0 "cpu").fwd_p_jumps.var.getD
          7 0
        = 1 - (DDPM.new (make_linear_schedule 10 (1e-4) (0.1)) 0
            "cpu").alpha_bar.getD 7 0 ∧
    (DDPM.new (make_linear_schedule 10 (1e-4) (0.1)) 0 "cpu").alpha_bar.getD 7 0
        = naive_alpha_bar (make_linear_schedule 10 (1e-4) (0.1)).beta 7 :=
  fwd_p_jumps_match_naive_recomputation (make_linear_schedule 10 (1e-4) (0.1)) 0
    "cpu" 7
    (by rw [make_linear_schedule_beta, gen_beta_schedule_length]; omega)

/-- C4: for every non-negative integer `T` and valid bounds,
`generate_linear_schedule` returns a schedule whose `beta`, `scale`,
`var` sequences have length `T + 1`, with `beta[0] = 0`, `beta[1..T]`
linearly interpolated between the bounds, `scale[t] = sqrt(1 - beta[t])`
and `var[t] = beta[t]`; for `T = 0` the schedule holds only the
sentinel index and is produced without error. -/
theorem generate_linear_schedule_shape (T : ℤ) (bl bh : ℝ) (hT : 0 ≤ T)
    (h0 : 0 ≤ bl) (h1 : bl ≤ bh) (h2 : bh < 1) :
    generate_linear_schedule T bl bh = .ok (make_linear_schedule T.toNat bl bh) ∧
    (make_linear_schedule T.toNat bl bh).beta.length = T.toNat + 1 ∧
    (make_linear_schedule T.toNat bl bh).scale.length = T.toNat + 1 ∧
    (make_linear_schedule T.toNat bl bh).var.length = T.toNat + 1 ∧
    (make_linear_schedule T.toNat bl bh).beta.getD 0 0 = 0 ∧
    (∀ t : ℕ, 1 ≤ t → t ≤ T.toNat →
      (make_linear_schedule T.toNat bl bh).beta.getD t 0
        = bl + (bh - bl) * ((t : ℝ) - 1) / ((T.toNat : ℝ) - 1)) ∧
    (∀ t : ℕ, t ≤ T.toNat →
      (make_linear_schedule T.toNat bl bh).scale.getD t 0
          = Real.sqrt (1 - (make_linear_schedule T.toNat bl bh).beta.getD t 0) ∧
      (make_linear_schedule T.toNat bl bh).var.getD t 0
          = (make_linear_schedule T.toNat bl bh).beta.getD t 0) := by
  have hlenB : (make_linear_schedule T.toNat bl bh).beta.length = T.toNat + 1 := by
    rw [make_linear_schedule_beta, gen_beta_schedule_length]
  refine ⟨?_, hlenB, ?_, ?_, ?_, ?_, ?_⟩
  · rw [generate_linear_schedule, if_pos ⟨hT, h0, h1, h2⟩]
  · rw [make_linear_schedule_scale, List.length_map, gen_beta_schedule_length]
  · rw [make_linear_schedule_var, gen_beta_schedule_length]
  · rw [make_linear_schedule_beta, gen_beta_schedule_getD_zero]
  · intro t ht1 htT
    obtain ⟨k, rfl⟩ : ∃ k, t = k + 1 := ⟨t - 1, by omega⟩
    rw [make_linear_schedule_beta, gen_beta_schedule_getD_succ,
      linspace_getD bl bh (show k < T.toNat by omega)]
    push_cast
    ring
  · intro t htT
    constructor
    · rw [make_linear_schedule_scale, make_linear_schedule_beta,
        getD_map _ _ (show t < (gen_beta_schedule bl bh T.toNat).length by
          rw [gen_beta_schedule_length]; omega)]
    · rw [make_linear_schedule_var, make_linear_schedule_beta]

/-- Witness for C4 at the degenerate horizon `T = 0` with bounds
`beta_low = beta_high = 1/2`. -/
theorem generate_linear_schedule_shape_witness :
    generate_linear_schedule 0 (1/2) (1/2)
        = .ok (make_linear_schedule (0 : ℤ).toNat (1/2) (1/2)) ∧
    (make_linear_schedule (0 : ℤ).toNat (1/2) (1/2)).beta.length
        = (0 : ℤ).toNat + 1 ∧
    (make_linear_schedule (0 : ℤ).toNat (1/2) (1/2)).scale.length
        = (0 : ℤ).toNat + 1 ∧
    (make_linear_schedule (0 : ℤ).toNat (1/2) (1/2)).var.length
        = (0 : ℤ).toNat + 1 ∧
    (make_linear_schedule (0 : ℤ).toNat (1/2) (1/2)).beta.getD 0 0 = 0 ∧
    (∀ t : ℕ, 1 ≤ t → t ≤ (0 : ℤ).toNat →
      (make_linear_schedule (0 : ℤ).toNat (1/2) (1/2)).beta.getD t 0
        = 1/2 + (1/2 - 1/2) * ((t : ℝ) - 1) / (((0 : ℤ).toNat : ℝ) - 1)) ∧
    (∀ t : ℕ, t ≤ (0 : ℤ).toNat →
      (make_linear_schedule (0 : ℤ).toNat (1/2) (1/2)).scale.getD t 0
          = Real.sqrt
              (1 - (make_linear_schedule (0 : ℤ).toNat (1/2) (1/2)).beta.getD t 0) ∧
      (make_linear_schedule (0 : ℤ).toNat (1/2) (1/2)).var.getD t 0
          = (make_linear_schedule (0 : ℤ).toNat (1/2) (1/2)).beta.getD t 0) :=
  generate_linear_schedule_shape 0 (1/2) (1/2) (by norm_num) (by norm_num)
    (by norm_num) (by norm_num)

/-- C5: for every valid beta sequence, every `t` in `[1, T]`, every `x0`
and noise `eps`, if `x_t` is the forward sample
`sqrt(alpha_bar[t]) * x0 + sqrt(1 - alpha_bar[t]) * eps`, then the
epsilon-parameterised reverse-step mean `p0 * x_t + p1 * eps` (from
`calc_imu_eps_parts`) equals the posterior mean `scale * x_t + bias`
(from `calc_imu`) within `1e-3`. -/
theorem eps_form_matches_posterior_form (beta : List ℝ) (hv : ValidBeta beta)
    (t : ℕ) (ht1 : 1 ≤ t) (ht : t < beta.length) (x0 eps : ℝ) :
    |((calc_imu_eps_parts (alpha_from_beta beta)
          (calc_alpha_bar (alpha_from_beta beta)) beta t).1
        * forward_sample (calc_alpha_bar (alpha_from_beta beta)) t x0 eps
      + (calc_imu_eps_parts (alpha_from_beta beta)
          (calc_alpha_bar (alpha_from_beta beta)) beta t).2 * eps)
     - ((calc_imu (alpha_from_beta beta)
          (calc_alpha_bar (alpha_from_beta beta)) beta t x0).1
        * forward_sample (calc_alpha_bar (alpha_from_beta beta)) t x0 eps
      + (calc_imu (alpha_from_beta beta)
          (calc_alpha_bar (alpha_from_beta beta)) beta t x0).2)| ≤ 1e-3 := by
  have hlenA : (alpha_from_beta beta).length = beta.length := List.length_map _ _
  obtain ⟨k, rfl⟩ : ∃ k, t = k + 1 := ⟨t - 1, by omega⟩
  have ha := alpha_getD_bounds hv ht
  have ha1 := alpha_getD_lt_one hv ht1 ht
  have hA := alpha_bar_getD_bounds hv (show k < beta.length by omega)
  have hrec : (calc_alpha_bar (alpha_from_beta beta)).getD (k + 1) 0
      = (calc_alpha_bar (alpha_from_beta beta)).getD k 0
        * (alpha_from_beta beta).getD (k + 1) 0 := by
    rw [calc_alpha_bar, cumprod_getD_succ _ (by rw [hlenA]; exact ht)]
  have hbeta : beta.getD (k + 1) 0 = 1 - (alpha_from_beta beta).getD (k + 1) 0 := by
    rw [alpha_from_beta, getD_map _ _ ht]
    ring
  have hAa_le : (calc_alpha_bar (alpha_from_beta beta)).getD k 0
      * (alpha_from_beta beta).getD (k + 1) 0
      ≤ (alpha_from_beta beta).getD (k + 1) 0 := by
    nlinarith [mul_nonneg (sub_nonneg.mpr hA.2) ha.1.le]
  have hlt : (calc_alpha_bar (alpha_from_beta beta)).getD k 0
      * (alpha_from_beta beta).getD (k + 1) 0 < 1 :=
    lt_of_le_of_lt hAa_le ha1
  have key := eps_mean_eq_posterior_mean ((alpha_from_beta beta).getD (k + 1) 0)
    ((calc_alpha_bar (alpha_from_beta beta)).getD k 0) x0 eps ha.1 hA.1 hlt
  simp only [calc_imu, calc_imu_eps_parts, forward_sample]
  rw [show k + 1 - 1 = k from rfl, hrec, hbeta, key, sub_self, abs_zero]
  norm_num

/-- Witness for C5 at `beta = [0, 1/2]`, `t = 1`, `x0 = 1`, `eps = 2`. -/
theorem eps_form_matches_posterior_form_witness :
    |((calc_imu_eps_parts (alpha_from_beta [0, 1/2])
          (calc_alpha_bar (alpha_from_beta [0, 1/2])) [0, 1/2] 1).1
        * forward_sample (calc_alpha_bar (alpha_from_beta [0, 1/2])) 1 1 2
      + (calc_imu_eps_parts (alpha_from_beta [0, 1/2])
          (calc_alpha_bar (alpha_from_beta [0, 1/2])) [0, 1/2] 1).2 * 2)
     - ((calc_imu (alpha_from_beta [0, 1/2])
          (calc_alpha_bar (alpha_from_beta [0, 1/2])) [0, 1/2] 1 1).1
        * forward_sample (calc_alpha_bar (alpha_from_beta [0, 1/2])) 1 1 2
      + (calc_imu (alpha_from_beta [0, 1/2])
          (calc_alpha_bar (alpha_from_beta [0, 1/2])) [0, 1/2] 1 1).2)| ≤ 1e-3 :=
  eps_form_matches_posterior_form [0, 1/2]
    (by
      refine ⟨rfl, ?_⟩
      intro i h1 h2
      simp only [List.length_cons, List.length_nil] at h2
      have hi : i = 1 := by omega
      subst hi
      norm_num [List.getD_cons_succ, List.getD_cons_zero])
    1 (by norm_num) (by norm_num) 1 2

/-- C6: `generate_linear_schedule` signals a ConfigurationError (and so
returns no schedule) whenever `beta_low > beta_high`, either bound is
outside `[0, 1)`, or `T < 0`; the invalid input is rejected, never
clamped. -/
theorem generate_linear_schedule_rejects_invalid_config (T : ℤ) (bl bh : ℝ)
    (h : bl > bh ∨ ¬(0 ≤ bl ∧ bl < 1) ∨ ¬(0 ≤ bh ∧ bh < 1) ∨ T < 0) :
    generate_linear_schedule T bl bh = .error .invalidConfig := by
  rw [generate_linear_schedule, if_neg]
  rintro ⟨c1, c2, c3, c4⟩
  rcases h with h | h | h | h
  · linarith
  · exact h ⟨c2, by linarith⟩
  · exact h ⟨by linarith, c4⟩
  · omega

/-- Witness for C6 at the inverted bounds `beta_low = 3/4 >
beta_high = 1/4`. -/
theorem generate_linear_schedule_rejects_invalid_config_witness :
    generate_linear_schedule 7 (3/4) (1/4) = .error .invalidConfig :=
  generate_linear_schedule_rejects_invalid_config 7 (3/4) (1/4)
    (Or.inl (by norm_num))

/-- C8: for every valid beta sequence, the engine's forward-jump
`scale[t] = sqrt(alpha_bar[t])` is in `[0, 1]` and non-increasing,
`var[t] = 1 - alpha_bar[t]` is in `[0, 1]` and non-decreasing, and
`alpha_bar` is strictly decreasing at every step landing on an index
`t ≥ 1`. -/
theorem forward_jump_invariants (sched : VarianceSchedule)
    (hv : ValidBeta sched.beta) (seed : ℕ) (device : String) (t : ℕ)
    (ht : t < sched.beta.length) :
    (0 ≤ (DDPM.new sched seed device).fwd_p_jumps.scale.getD t 0 ∧
     (DDPM.new sched seed device).fwd_p_jumps.scale.getD t 0 ≤ 1 ∧
     0 ≤ (DDPM.new sched seed device).fwd_p_jumps.var.getD t 0 ∧
     (DDPM.new sched seed device).fwd_p_jumps.var.getD t 0 ≤ 1) ∧
    (t + 1 < sched.beta.length →
     (DDPM.new sched seed device).fwd_p_jumps.scale.getD (t + 1) 0
         ≤ (DDPM.new sched seed device).fwd_p_jumps.scale.getD t 0 ∧
     (DDPM.new sched seed device).fwd_p_jumps.var.getD t 0
         ≤ (DDPM.new sched seed device).fwd_p_jumps.var.getD (t + 1) 0 ∧
     (DDPM.new sched seed device).alpha_bar.getD (t + 1) 0
         < (DDPM.new sched seed device).alpha_bar.getD t 0) := by
  have hlenC : (cumprod (sched.beta.map (fun b => 1 - b))).length
      = sched.beta.length := by
    rw [cumprod_length, List.length_map]
  have hb : 0 < (cumprod (sched.beta.map (fun b => 1 - b))).getD t 0 ∧
      (cumprod (sched.beta.map (fun b => 1 - b))).getD t 0 ≤ 1 :=
    alpha_bar_getD_bounds hv ht
  constructor
  · refine ⟨?_, ?_, ?_, ?_⟩
    · rw [DDPM_new_fwd_scale, getD_map _ _ (by rw [hlenC]; exact ht)]
      exact Real.sqrt_nonneg _
    · rw [DDPM_new_fwd_scale, getD_map _ _ (by rw [hlenC]; exact ht)]
      exact Real.sqrt_le_one.mpr hb.2
    · rw [DDPM_new_fwd_var, getD_map _ _ (by rw [hlenC]; exact ht)]
      linarith [hb.2]
    · rw [DDPM_new_fwd_var, getD_map _ _ (by rw [hlenC]; exact ht)]
      linarith [hb.1]
  · intro hs
    have halpha : (sched.beta.map (fun b => 1 - b)).getD (t + 1) 0 < 1 :=
      alpha_getD_lt_one hv (by omega) hs
    have hstep : (cumprod (sched.beta.map (fun b => 1 - b))).getD (t + 1) 0
        = (cumprod (sched.beta.map (fun b => 1 - b))).getD t 0
          * (sched.beta.map (fun b => 1 - b)).getD (t + 1) 0 :=
      cumprod_getD_succ _ (by rw [List.length_map]; exact hs)
    have hdec : (cumprod (sched.beta.map (fun b => 1 - b))).getD (t + 1) 0
        < (cumprod (sched.beta.map (fun b => 1 - b))).getD t 0 := by
      rw [hstep]
      exact mul_lt_of_lt_one_right hb.1 halpha
    refine ⟨?_, ?_, ?_⟩
    · rw [DDPM_new_fwd_scale, getD_map _ _ (by rw [hlenC]; exact hs),
        getD_map _ _ (by rw [hlenC]; exact ht)]
      exact Real.sqrt_le_sqrt hdec.le
    · rw [DDPM_new_fwd_var, getD_map _ _ (by rw [hlenC]; exact ht),
        getD_map _ _ (by rw [hlenC]; exact hs)]
      linarith [hdec]
    · exact hdec

/-- Witness for C8 at the two-entry schedule `beta = [0, 1/2]`, `t = 0`. -/
theorem forward_jump_invariants_witness :
    (0 ≤ (DDPM.new ⟨[0, 1/2], [], []⟩ 0 "cpu").fwd_p_jumps.scale.getD 0 0 ∧
     (DDPM.new ⟨[0, 1/2], [], []⟩ 0 "cpu").fwd_p_jumps.scale.getD 0 0 ≤ 1 ∧
     0 ≤ (DDPM.new ⟨[0, 1/2], [], []⟩ 0 "cpu").fwd_p_jumps.var.getD 0 0 ∧
     (DDPM.new ⟨[0, 1/2], [], []⟩ 0 "cpu").fwd_p_jumps.var.getD 0 0 ≤ 1) ∧
    (0 + 1 < (VarianceSchedule.mk [0, 1/2] [] []).beta.length →
     (DDPM.new ⟨[0, 1/2], [], []⟩ 0 "cpu").fwd_p_jumps.scale.getD (0 + 1) 0
         ≤ (DDPM.new ⟨[0, 1/2], [], []⟩ 0 "cpu").fwd_p_jumps.scale.getD 0 0 ∧
     (DDPM.new ⟨[0, 1/2], [], []⟩ 0 "cpu").fwd_p_jumps.var.getD 0 0
         ≤ (DDPM.new ⟨[0, 1/2], [], []⟩ 0 "cpu").fwd_p_jumps.var.getD (0 + 1) 0 ∧
     (DDPM.new ⟨[0, 1/2], [], []⟩ 0 "cpu").alpha_bar.getD (0 + 1) 0
         < (DDPM.new ⟨[0, 1/2], [], []⟩ 0 "cpu").alpha_bar.getD 0 0) :=
  forward_jump_invariants ⟨[0, 1/2], [], []⟩
    (by
      refine ⟨rfl, ?_⟩
      intro i h1 h2
      simp only [List.length_cons, List.length_nil] at h2
      have hi : i = 1 := by omega
      subst hi
      norm_num [List.getD_cons_succ, List.getD_cons_zero])
    0 "cpu" 0 (by simp)

/-- C9: for `T = 1` and any bounds, the generated beta sequence is
`[0, beta_low]` — the single meaningful timestep receives variance
`beta_low` and `beta_high` has no effect on the output. -/
theorem schedule_horizon_one_keeps_beta_low (bl bh : ℝ) :
    gen_beta_schedule bl bh 1 = [0, bl] ∧
    (make_linear_schedule 1 bl bh).beta = [0, bl] := by
  have h : linspace bl bh 1 = [bl] := by
    rw [linspace, show List.range 1 = [0] from rfl, List.map_cons, List.map_nil]
    norm_num
  exact ⟨by rw [gen_beta_schedule, h],
    by rw [make_linear_schedule_beta, gen_beta_schedule, h]⟩

/-- C10: `default_model_init` returns the prepared model after in-place
weight initialisation, with spectral normalisation applied exactly when
`model_config.spectr_norm` is set, and no configuration field other
than `weight_init` and `spectr_norm` affects the result. -/
theorem default_model_init_behaviour {M W D O : Type} (prepare_model : M → D → M)
    (init_weights : M → W → M) (apply_sn : M → M) (model : M)
    (model_config model_config' : ModelConfig W O) (device : D)
    (hw : model_config'.weight_init = model_config.weight_init)
    (hs : model_config'.spectr_norm = model_config.spectr_norm) :
    default_model_init prepare_model init_weights apply_sn model model_config
        device
      = (if model_config.spectr_norm then
          apply_sn (init_weights (prepare_model model device)
            model_config.weight_init)
        else init_weights (prepare_model model device)
            model_config.weight_init) ∧
    default_model_init prepare_model init_weights apply_sn model model_config'
        device
      = default_model_init prepare_model init_weights apply_sn model
          model_config device := by
  refine ⟨rfl, ?_⟩
  rw [default_model_init, default_model_init, hw, hs]

/-- Witness for C10 on a trace model: collaborators append their names,
and the two configurations differ only in the extra field. -/
theorem default_model_init_behaviour_witness :
    default_model_init (fun (m : List String) (_ : Unit) => m ++ ["prepare_model"])
        (fun m (_ : Unit) => m ++ ["init_weights"]) (fun m => m ++ ["apply_sn"])
        [] ⟨(), true, (0 : ℕ)⟩ ()
      = (if (ModelConfig.mk () true (0 : ℕ)).spectr_norm then
          (fun m => m ++ ["apply_sn"])
            ((fun m (_ : Unit) => m ++ ["init_weights"])
              ((fun (m : List String) (_ : Unit) => m ++ ["prepare_model"]) [] ())
              (ModelConfig.mk () true (0 : ℕ)).weight_init)
        else
          (fun m (_ : Unit) => m ++ ["init_weights"])
            ((fun (m : List String) (_ : Unit) => m ++ ["prepare_model"]) [] ())
            (ModelConfig.mk () true (0 : ℕ)).weight_init) ∧
    default_model_init (fun (m : List String) (_ : Unit) => m ++ ["prepare_model"])
        (fun m (_ : Unit) => m ++ ["init_weights"]) (fun m => m ++ ["apply_sn"])
        [] ⟨(), true, (1 : ℕ)⟩ ()
      = default_model_init
          (fun (m : List String) (_ : Unit) => m ++ ["prepare_model"])
          (fun m (_ : Unit) => m ++ ["init_weights"]) (fun m => m ++ ["apply_sn"])
          [] ⟨(), true, (0 : ℕ)⟩ () :=
  default_model_init_behaviour
    (fun (m : List String) (_ : Unit) => m ++ ["prepare_model"])
    (fun m (_ : Unit) => m ++ ["init_weights"]) (fun m => m ++ ["apply_sn"])
    [] ⟨(), true, (0 : ℕ)⟩ ⟨(), true, (1 : ℕ)⟩ () rfl rfl

/-- C7 counterexample: at `T = 10`, `beta_low = 1e-4`,
`beta_high = 0.1`, the claimed value `beta[5] ≈ 0.055` is wrong: the
zero sentinel shifts the ramp, so `beta[5]` is the linspace point of
index 4, namely `1e-4 + 4 * (0.1 - 1e-4) / 9 = 0.0445`, which misses
`0.055` by `0.0105 > 1e-3`.  The whole claimed conjunction is false. -/
theorem linear_schedule_example_beta5_refuted :
    ¬((gen_beta_schedule (1e-4) (0.1) 10).getD 0 0 = 0 ∧
      |(gen_beta_schedule (1e-4) (0.1) 10).getD 10 0 - 0.1| ≤ 1e-3 ∧
      |(gen_beta_schedule (1e-4) (0.1) 10).getD 5 0 - 0.055| ≤ 1e-3 ∧
      |(calc_alpha_bar (alpha_from_beta (gen_beta_schedule (1e-4) (0.1) 10))).getD
            10 0
          - ((List.range 10).map
              (fun i : ℕ => 1 - (gen_beta_schedule (1e-4) (0.1) 10).getD (i + 1)
                0)).prod| ≤ 1e-6) := by
  intro h
  have h5 := h.2.2.1
  have hval : (gen_beta_schedule (1e-4) (0.1) 10).getD 5 0 = 0.0445 := by
    rw [show (5 : ℕ) = 4 + 1 from rfl, gen_beta_schedule_getD_succ,
      linspace_getD (1e-4) (0.1) (show (4 : ℕ) < 10 by norm_num)]
    norm_num
  rw [hval, abs_le] at h5
  linarith [h5.1]

/-- C7 amended: at `T = 10`, `beta_low = 1e-4`, `beta_high = 0.1`, the
schedule satisfies `beta[0] = 0`, `beta[10] ≈ 0.1`, `beta[5] ≈ 0.0445`
(not 0.055: the sentinel shifts the ramp, `beta[6] ≈ 0.0556` is the
value near 0.055), and `alpha_bar[10]` equals the direct product of
`(1 - beta[t])` over `t = 1..10` within `1e-6`. -/
theorem linear_schedule_example_values :
    (gen_beta_schedule (1e-4) (0.1) 10).getD 0 0 = 0 ∧
    |(gen_beta_schedule (1e-4) (0.1) 10).getD 10 0 - 0.1| ≤ 1e-3 ∧
    |(gen_beta_schedule (1e-4) (0.1) 10).getD 5 0 - 0.0445| ≤ 1e-3 ∧
    |(calc_alpha_bar (alpha_from_beta (gen_beta_schedule (1e-4) (0.1) 10))).getD
          10 0
        - ((List.range 10).map
            (fun i : ℕ => 1 - (gen_beta_schedule (1e-4) (0.1) 10).getD (i + 1)
              0)).prod| ≤ 1e-6 := by
  have hlenB : (gen_beta_schedule (1e-4) (0.1) 10).length = 11 := by
    rw [gen_beta_schedule_length]
  have hlenA : (alpha_from_beta (gen_beta_schedule (1e-4) (0.1) 10)).length
      = 11 := by
    rw [alpha_from_beta, List.length_map, hlenB]
  refine ⟨gen_beta_schedule_getD_zero _ _ _, ?_, ?_, ?_⟩
  · rw [show (10 : ℕ) = 9 + 1 from rfl, gen_beta_schedule_getD_succ,
      linspace_getD (1e-4) (0.1) (show (9 : ℕ) < 10 by norm_num)]
    norm_num
  · rw [show (5 : ℕ) = 4 + 1 from rfl, gen_beta_schedule_getD_succ,
      linspace_getD (1e-4) (0.1) (show (4 : ℕ) < 10 by norm_num)]
    norm_num
  · have key : (calc_alpha_bar (alpha_from_beta
        (gen_beta_schedule (1e-4) (0.1) 10))).getD 10 0
        = ((List.range 10).map
            (fun i : ℕ => 1 - (gen_beta_schedule (1e-4) (0.1) 10).getD (i + 1)
              0)).prod := by
      have hmap : (List.range 11).map
            (fun i : ℕ => (alpha_from_beta (gen_beta_schedule (1e-4) (0.1)
              10)).getD i 0)
          = (List.range 11).map
            (fun i : ℕ => 1 - (gen_beta_schedule (1e-4) (0.1) 10).getD i 0) := by
        apply List.map_congr_left
        intro i hi
        rw [List.mem_range] at hi
        rw [alpha_from_beta, getD_map _ _ (show i < (gen_beta_schedule (1e-4)
          (0.1) 10).length by rw [hlenB]; omega)]
      rw [calc_alpha_bar,
        cumprod_getD_eq_range_prod _ (show 10 < (alpha_from_beta
          (gen_beta_schedule (1e-4) (0.1) 10)).length by rw [hlenA]; omega),
        hmap]
      rw [List.range_succ_eq_map, List.map_cons, List.prod_cons, List.map_map]
      rw [show ((fun i : ℕ => 1 - (gen_beta_schedule (1e-4) (0.1) 10).getD i 0)
          ∘ Nat.succ)
        = (fun i : ℕ => 1 - (gen_beta_schedule (1e-4) (0.1) 10).getD (i + 1) 0)
        from rfl]
      rw [gen_beta_schedule_getD_zero]
      norm_num
    rw [key, sub_self, abs_zero]
    norm_num

end
